import Mathlib

/-!
Verification of the DreamBot options-trading control plane (n8kahl/OptionsTrader).

This file shallowly embeds the Python source under `src/dreambot` into Lean:
Python floats are modelled as exact rationals (`ℚ`), Python ints as `Int`/`Nat`,
strings as `String`, fallible code as `Except String`, and the asynchronous risk
order lifecycle as an explicit labelled transition system.  Each claim about the
natural-language specification is then stated and settled as a theorem below the
definitions.
-/

namespace DreamBot

/-- Python `int(float(x))` on an exact rational: truncation toward zero. -/
def pyTrunc (q : ℚ) : Int :=
  if q < 0 then ⌈q⌉ else ⌊q⌋

/-- `clamp(value, lo, hi)` from `services/backtest/calibrate.py`:
`max(lo, min(hi, value))`. -/
def clamp (value lo hi : ℚ) : ℚ :=
  max lo (min hi value)

/-- Round-half-to-even on an exact rational, the semantics of Python `round`
at integer granularity. -/
def roundHalfEven (x : ℚ) : Int :=
  let f : Int := ⌊x⌋
  let r : ℚ := x - f
  if r < 1/2 then f
  else if 1/2 < r then f + 1
  else if f % 2 = 0 then f else f + 1

/-- Python `round(x, n)` modelled on exact rationals (half-to-even at the
`n`-th decimal place). -/
def pyRound (x : ℚ) (n : ℕ) : ℚ :=
  (roundHalfEven (x * 10 ^ n) : ℚ) / 10 ^ n

/-- Python `str.upper()` (character-wise, which is all the sources use). -/
def pyUpper (s : String) : String := String.mk (s.data.map Char.toUpper)

/-- Python `str.lower()` (character-wise, which is all the sources use). -/
def pyLower (s : String) : String := String.mk (s.data.map Char.toLower)

/-! ## `services/oms/stop_sync.py` -/

/-- `StopSyncConfig`.  The source field `trail_ratio` (default 0.6) is named
`trail_coeff` here. -/
structure StopSyncConfig where
  modify_on_tick : Bool := true
  trail_coeff : ℚ := 3/5

/-- `compute_stop_from_underlying(entry_underlying, move, direction)`. -/
def compute_stop_from_underlying (entry_underlying move : ℚ) (direction : String) : ℚ :=
  let sign : ℚ := if pyUpper direction = "BUY" then 1 else -1
  entry_underlying + sign * move

/-- `adjust_stop(existing_stop, current_underlying, direction, config)`. -/
def adjust_stop (existing_stop current_underlying : ℚ) (direction : String)
    (config : StopSyncConfig) : ℚ :=
  if config.modify_on_tick = false then existing_stop
  else
    let desired := compute_stop_from_underlying current_underlying
      (-(StopSyncConfig.trail_coeff config) * |current_underlying - existing_stop|) direction
    if pyUpper direction = "BUY" then max existing_stop desired
    else min existing_stop desired

/-! ## `services/oms/order_templates.py` -/

/-- `OrderLeg`. -/
structure OrderLeg where
  side : String
  quantity : Int
  order_type : String
  limit_price : Option ℚ := none
  stop_price : Option ℚ := none

/-- `OTOCOOrder`. -/
structure OTOCOOrder where
  symbol : String
  entry : OrderLeg
  take_profit : OrderLeg
  stop : OrderLeg

/-- `build_otoco(symbol, quantity, side, entry_price, target_price, stop_price,
offset_ticks)`. -/
def build_otoco (symbol : String) (quantity : Int) (side : String)
    (entry_price target_price stop_price offset_ticks : ℚ) : OTOCOOrder :=
  let sign : ℚ := if pyUpper side = "BUY" then 1 else -1
  let entry_limit := entry_price + sign * offset_ticks
  let tp_leg : OrderLeg :=
    { side := if pyUpper side = "BUY" then "SELL" else "BUY"
      quantity := quantity
      order_type := "limit"
      limit_price := some target_price }
  let stop_leg : OrderLeg :=
    { side := tp_leg.side
      quantity := quantity
      order_type := "stop"
      stop_price := some stop_price }
  let entry_leg : OrderLeg :=
    { side := pyUpper side
      quantity := quantity
      order_type := "limit"
      limit_price := some entry_limit }
  { symbol := symbol, entry := entry_leg, take_profit := tp_leg, stop := stop_leg }

/-- The side opposite to a `BUY`/`SELL` side string. -/
def oppositeSide (side : String) : String :=
  if side = "BUY" then "SELL" else "BUY"

/-! ## `services/signals/policy.py` and `services/signals/gating.py` -/

/-- The fields of `FeaturePacket` that the verified code paths read
(`choose_playbook` reads `ts`; the learner's feature handler reads `ts`,
`symbol`, `vwap_slope`, `adx_3m`, `vol_of_vol` and `micro["spread_pct"]`). -/
structure FeaturePacketM where
  ts : Int
  symbol : String
  vwap_slope : ℚ
  adx_3m : ℚ
  vol_of_vol : ℚ
  spread_pct : ℚ

/-- `GateResult` (from `services/signals/gating.py`), restricted to the fields
`choose_playbook` reads. -/
structure GateResult where
  allowed : Bool
  regime_score : ℚ

/-- `choose_playbook(features, gate)`; the `raise ValueError` on a failed gate
becomes `Except.error`. -/
def choose_playbook (features : FeaturePacketM) (gate : GateResult) :
    Except String String :=
  if gate.allowed = false then .error "gating failed"
  else if (1/5 : ℚ) < gate.regime_score then .ok "TREND_PULLBACK"
  else if gate.regime_score < -(1/5 : ℚ) then .ok "BALANCE_FADE"
  else if features.ts % (60 * 1000000) < 5 * 60 * 1000000 then .ok "ORB"
  else .ok "LATE_PUSH"

/-! ## `services/features/indicators.py` -/

/-- `compute_session_vwap(prices, volumes)`.  `_validate_lengths` raising
`ValueError` and the numpy `prices_arr[-1]` indexing error on an empty array
are both modelled as `Except.error`. -/
def compute_session_vwap (prices volumes : List ℚ) : Except String ℚ :=
  if prices.length ≠ volumes.length then
    .error "All input arrays must share the same length"
  else
    let volume_sum := volumes.sum
    if volume_sum ≤ 0 then
      match prices.getLast? with
      | none => .error "index -1 is out of bounds for axis 0 with size 0"
      | some p => .ok p
    else .ok ((List.zipWith (fun p v => p * v) prices volumes).sum / volume_sum)

/-! ## `services/risk/rules.py` -/

/-- `RiskConfig`.  The `defensive_mode` mapping carries the two threshold keys
`slippage_z` and `spread_z`, modelled as two fields. -/
structure RiskConfig where
  daily_loss_cap : ℚ
  per_trade_max_risk_pct : ℚ
  max_concurrent_positions : Int
  no_trade_first_seconds : Int
  econ_halt_minutes_pre_post : Int
  force_flat_before_close_secs : Int
  defensive_slippage_z : ℚ
  defensive_spread_z : ℚ

/-- `RiskState`. -/
structure RiskState where
  pnl : ℚ := 0
  open_positions : Int := 0
  session_start_ts : Int := 0
  last_trade_ts : Int := 0
  defensive : Bool := false

/-- `RiskManager.update_defensive(slippage_z, spread_z)`. -/
def update_defensive (config : RiskConfig) (state : RiskState)
    (slippage_z spread_z : ℚ) : RiskState :=
  { state with defensive :=
      (decide (config.defensive_slippage_z ≤ slippage_z ∨
        config.defensive_spread_z ≤ spread_z)) }

/-- `RiskManager.entry_allowed(ts, minutes_to_open, minutes_to_close)`.  The
Python `/ 1_000_000` is true division producing a float, hence exact rational
division here. -/
def entry_allowed (config : RiskConfig) (state : RiskState)
    (ts minutes_to_open minutes_to_close : Int) : Bool :=
  if state.pnl ≤ config.daily_loss_cap then false
  else if config.max_concurrent_positions ≤ state.open_positions then false
  else if ((ts : ℚ) - (state.session_start_ts : ℚ)) / 1000000 <
      (config.no_trade_first_seconds : ℚ) then false
  else if |minutes_to_open| ≤ config.econ_halt_minutes_pre_post then false
  else if minutes_to_close * 60 ≤ config.force_flat_before_close_secs then false
  else true

/-- The entry-check list exactly as the specification words it (`§4.4`): all of
cumulative PnL above the loss cap, open positions below the concurrency cap,
session warm-up elapsed, econ-halt distance, force-flat distance, and the
defensive-mode flag not raised.  Written from the spec, to be compared with
`entry_allowed` (which is written from the source). -/
def entryChecksSpec (config : RiskConfig) (state : RiskState)
    (ts minutes_to_open minutes_to_close : Int) : Prop :=
  config.daily_loss_cap < state.pnl ∧
  state.open_positions < config.max_concurrent_positions ∧
  (config.no_trade_first_seconds : ℚ) ≤
    ((ts : ℚ) - (state.session_start_ts : ℚ)) / 1000000 ∧
  config.econ_halt_minutes_pre_post < |minutes_to_open| ∧
  config.force_flat_before_close_secs < minutes_to_close * 60 ∧
  state.defensive = false

instance (config : RiskConfig) (state : RiskState)
    (ts minutes_to_open minutes_to_close : Int) :
    Decidable (entryChecksSpec config state ts minutes_to_open minutes_to_close) := by
  unfold entryChecksSpec; infer_instance

/-! ## `services/learner/changepoint.py` -/

/-- `BayesianChangePoint`.  `maxlen` is the bound of the underlying deque (the
source constructs `deque(maxlen=120)`). -/
structure BayesianChangePoint where
  window : ℕ := 120
  threshold : ℚ := 5
  maxlen : ℕ := 120
  history : List ℚ := []

/-- `BayesianChangePoint.update(value)`: returns the updated detector state and
whether a change fired. -/
def BayesianChangePoint.update (b : BayesianChangePoint) (value : ℚ) :
    BayesianChangePoint × Bool :=
  let h₀ := b.history ++ [value]
  let h := if b.maxlen < h₀.length then h₀.drop (h₀.length - b.maxlen) else h₀
  let b' := { b with history := h }
  if h.length < b.window then (b', false)
  else
    let first_half := h.take (b.window / 2)
    let second_half := h.drop (b.window / 2)
    let mean_diff :=
      |first_half.sum / (first_half.length : ℚ) -
        second_half.sum / (second_half.length : ℚ)|
    (b', decide (b.threshold ≤ mean_diff))

/-! ## `services/learner/main.py`, feature handler -/

/-- Calibration parameters as returned by
`LearnerService.calibration_params(symbol)` (defaults already applied). -/
structure CalibParams where
  risk_multiplier : ℚ := 1
  pot_threshold : ℚ := 11/20
  adx_threshold : ℚ := 20

/-- The adjustment packet published on `learner_adj` by `handle_feature`.
`playbook_weights` is carried opaquely (the bandit is outside the verified
claims). -/
structure LearnerAdjustments where
  ts : Int
  symbol : String
  risk_multiplier : ℚ
  pot_threshold : ℚ
  adx_threshold : ℚ
  playbook_weights : List (String × ℚ)

/-- `handle_feature(payload)` from `run_learner_stream`, as a pure function of
the change-point detector state, the bandit weights, the calibration
parameters, and the incoming feature packet.  Returns the new detector state
and the published adjustment packet. -/
def handle_feature (cp : BayesianChangePoint) (weights : List (String × ℚ))
    (params : CalibParams) (feature : FeaturePacketM) :
    BayesianChangePoint × LearnerAdjustments :=
  let spread_pct := feature.spread_pct
  let regime_value := |feature.vwap_slope| * 10 + feature.adx_3m / 50
  let result := cp.update spread_pct
  let change := result.2
  let base_risk := params.risk_multiplier
  let rm₀ : ℚ :=
    if change then 4/5
    else max (1/2) (min (3/2) (1 / (1 + feature.vol_of_vol * 5)))
  let rm := rm₀ * base_risk
  let base_pot := params.pot_threshold
  (result.1,
   { ts := feature.ts
     symbol := feature.symbol
     risk_multiplier := rm
     pot_threshold := max (2/5) (min (7/10) (base_pot + min (1/5) (regime_value * (1/10))))
     adx_threshold := params.adx_threshold
     playbook_weights := weights })

/-! ## `services/oms/main.py`, metrics payload -/

/-- One entry of `OrderStatus.fills`, restricted to the two keys the OMS
metrics path reads. -/
structure FillM where
  price : ℚ
  qty : ℚ

/-- The echoed `OrderStatus.request` mapping, restricted to the keys
`_metrics_payload` reads. -/
structure RequestEcho where
  ts : Int
  side : String
  quantity : Int
  client_order_id : Option String

/-- `OrderStatus`, restricted to the fields the OMS metrics path reads. -/
structure OrderStatusM where
  ts : Int
  order_id : String
  state : String
  request : RequestEcho
  fills : List FillM

/-- `OMSService._filled_quantity(status)`: sum of `int(float(fill["qty"]))`. -/
def filled_quantity (status : OrderStatusM) : Int :=
  (status.fills.map (fun f => pyTrunc f.qty)).sum

/-- The payload built by `OMSService._metrics_payload(status)`. -/
structure MetricsPayload where
  ts : Int
  order_id : String
  client_order_id : Option String
  state : String
  side : String
  quantity : Int
  filled_qty : Int
  latency_ms : ℚ
  avg_fill_price : Option ℚ

/-- `OMSService._metrics_payload(status)`. -/
def metrics_payload (status : OrderStatusM) : MetricsPayload :=
  let request := status.request
  let request_ts := request.ts
  let latency_ms := max (((status.ts : ℚ) - (request_ts : ℚ)) / 1000) 0
  let quantity := request.quantity
  let filled := filled_quantity status
  let total_price := (status.fills.map (fun f => f.price * f.qty)).sum
  let avg_fill : Option ℚ :=
    if 0 < filled ∧ 0 < total_price then some (total_price / (filled : ℚ)) else none
  { ts := status.ts
    order_id := status.order_id
    client_order_id := request.client_order_id
    state := pyLower status.state
    side := request.side
    quantity := quantity
    filled_qty := filled
    latency_ms := latency_ms
    avg_fill_price := avg_fill }

/-! ## `services/backtest/calibrate.py` -/

/-- The mapping returned by `compute_metrics(trades)`.  A trade is represented
by its `pnl` (the only field `compute_metrics` and `derive_risk_multiplier`
read). -/
structure CalibMetrics where
  trades : ℕ
  expectancy : ℚ
  win_rate : ℚ
  avg_win : ℚ
  avg_loss : ℚ
  pnl : ℚ
deriving DecidableEq

/-- `compute_metrics(trades)` over the trades' pnl list. -/
def compute_metrics (pnls : List ℚ) : CalibMetrics :=
  if pnls.isEmpty then
    { trades := 0, expectancy := 0, win_rate := 0, avg_win := 0, avg_loss := 0, pnl := 0 }
  else
    let wins := pnls.filter (fun p => 0 < p)
    let losses := pnls.filter (fun p => p ≤ 0)
    { trades := pnls.length
      expectancy := pnls.sum / (pnls.length : ℚ)
      win_rate := (wins.length : ℚ) / (pnls.length : ℚ)
      avg_win := if wins.isEmpty then 0 else wins.sum / (wins.length : ℚ)
      avg_loss := if losses.isEmpty then 0 else losses.sum / (losses.length : ℚ)
      pnl := pnls.sum }

/-- `derive_risk_multiplier(expectancy) = round(clamp(1+expectancy, 0.5, 1.5), 4)`. -/
def derive_risk_multiplier (expectancy : ℚ) : ℚ :=
  pyRound (clamp (1 + expectancy) (1/2) (3/2)) 4

/-- The `params` mapping assembled by `optimize_symbol` for a grid point. -/
structure GridParams where
  pot_threshold : ℚ
  adx_threshold : ℚ
  risk_multiplier : ℚ
deriving DecidableEq

/-- `params` for grid point `(pot, adx)` whose backtest metrics are `m`:
`round(pot, 4)`, `round(adx, 2)`, `derive_risk_multiplier(expectancy)`. -/
def gridParams (pot adx : ℚ) (m : CalibMetrics) : GridParams :=
  { pot_threshold := pyRound pot 4
    adx_threshold := pyRound adx 2
    risk_multiplier := derive_risk_multiplier m.expectancy }

/-- The Cartesian grid `itertools.product(pot_grid, adx_grid)` in iteration
order. -/
def gridProduct (pot_grid adx_grid : List ℚ) : List (ℚ × ℚ) :=
  pot_grid.flatMap (fun pot => adx_grid.map (fun adx => (pot, adx)))

/-- The filter applied inside the grid loop of `optimize_symbol`: a combination
qualifies unless `metrics["trades"] < min_trades` or
`metrics["win_rate"] < min_win_rate`. -/
def qualifies (m : CalibMetrics) (min_win_rate : ℚ) (min_trades : ℕ) : Bool :=
  !(m.trades < min_trades || m.win_rate < min_win_rate)

/-- One step of the grid loop of `optimize_symbol`.  `oracle pot adx` stands
for the trade pnl list of `run_backtest(symbol, bars, …, pot, adx, seed)`,
which for fixed symbol, bars, decision data and seed is a function of the two
thresholds alone. -/
def optStep (oracle : ℚ → ℚ → List ℚ) (min_win_rate : ℚ) (min_trades : ℕ)
    (best : Option (CalibMetrics × List ℚ × GridParams)) (pa : ℚ × ℚ) :
    Option (CalibMetrics × List ℚ × GridParams) :=
  let pnls := oracle pa.1 pa.2
  let metrics := compute_metrics pnls
  if qualifies metrics min_win_rate min_trades = false then best
  else
    match best with
    | none => some (metrics, pnls, gridParams pa.1 pa.2 metrics)
    | some b =>
        if b.1.expectancy < metrics.expectancy then
          some (metrics, pnls, gridParams pa.1 pa.2 metrics)
        else some b

/-- `optimize_symbol(...)`: grid search with fallback to
`(pot_grid[0], adx_grid[0])`, abstracted over the backtest `oracle`.  Returns
`(best_metrics, best_trades, best_params)`; `.getD 0` models the Python
`pot_grid[0]` indexing (the claims always supply non-empty grids, so the
default is never reached there). -/
def optimize_symbol (oracle : ℚ → ℚ → List ℚ) (pot_grid adx_grid : List ℚ)
    (min_win_rate : ℚ) (min_trades : ℕ) :
    CalibMetrics × List ℚ × GridParams :=
  match (gridProduct pot_grid adx_grid).foldl
      (optStep oracle min_win_rate min_trades) none with
  | some b => b
  | none =>
      let default_pot := pot_grid.getD 0 0
      let default_adx := adx_grid.getD 0 0
      let pnls := oracle default_pot default_adx
      let metrics := compute_metrics pnls
      (metrics, pnls, gridParams default_pot default_adx metrics)

/-- The `(metrics, trades, params)` payload `optimize_symbol` keeps for the
grid point `pa` when it becomes the current best. -/
def optPayload (oracle : ℚ → ℚ → List ℚ) (pa : ℚ × ℚ) :
    CalibMetrics × List ℚ × GridParams :=
  (compute_metrics (oracle pa.1 pa.2), oracle pa.1 pa.2,
    gridParams pa.1 pa.2 (compute_metrics (oracle pa.1 pa.2)))

/-- The grid-loop invariant of `optimize_symbol`: the accumulator is `none`
exactly as long as no grid point so far qualified, and otherwise holds the
payload of a qualifying grid point whose expectancy dominates every
qualifying grid point seen so far. -/
def OptLoopGood (oracle : ℚ → ℚ → List ℚ) (min_win_rate : ℚ) (min_trades : ℕ)
    (L : List (ℚ × ℚ)) : Option (CalibMetrics × List ℚ × GridParams) → Prop
  | none => ∀ pa ∈ L,
      qualifies (compute_metrics (oracle pa.1 pa.2)) min_win_rate min_trades = false
  | some b => ∃ pa ∈ L,
      qualifies (compute_metrics (oracle pa.1 pa.2)) min_win_rate min_trades = true ∧
      b = (compute_metrics (oracle pa.1 pa.2), oracle pa.1 pa.2,
        gridParams pa.1 pa.2 (compute_metrics (oracle pa.1 pa.2))) ∧
      ∀ pb ∈ L,
        qualifies (compute_metrics (oracle pb.1 pb.2)) min_win_rate min_trades = true →
          (compute_metrics (oracle pb.1 pb.2)).expectancy ≤
            (compute_metrics (oracle pa.1 pa.2)).expectancy

/-- What claim C9 asserts of `optimize_symbol`, phrased over the backtest
oracle: when some grid combination qualifies, the returned params come from a
qualifying combination of maximal expectancy (with the rounding and
`derive_risk_multiplier` applied); when none qualifies, they come from the
first grid point. -/
def OptimizeSpec (oracle : ℚ → ℚ → List ℚ) (pot_grid adx_grid : List ℚ)
    (min_win_rate : ℚ) (min_trades : ℕ) : Prop :=
  ((∃ pa ∈ gridProduct pot_grid adx_grid,
      qualifies (compute_metrics (oracle pa.1 pa.2)) min_win_rate min_trades = true) →
    ∃ pa ∈ gridProduct pot_grid adx_grid,
      qualifies (compute_metrics (oracle pa.1 pa.2)) min_win_rate min_trades = true ∧
      (optimize_symbol oracle pot_grid adx_grid min_win_rate min_trades).2.2 =
        gridParams pa.1 pa.2 (compute_metrics (oracle pa.1 pa.2)) ∧
      (optimize_symbol oracle pot_grid adx_grid min_win_rate min_trades).1 =
        compute_metrics (oracle pa.1 pa.2) ∧
      ∀ pb ∈ gridProduct pot_grid adx_grid,
        qualifies (compute_metrics (oracle pb.1 pb.2)) min_win_rate min_trades = true →
          (compute_metrics (oracle pb.1 pb.2)).expectancy ≤
            (compute_metrics (oracle pa.1 pa.2)).expectancy) ∧
  ((∀ pa ∈ gridProduct pot_grid adx_grid,
      qualifies (compute_metrics (oracle pa.1 pa.2)) min_win_rate min_trades = false) →
    (optimize_symbol oracle pot_grid adx_grid min_win_rate min_trades).2.2 =
      gridParams (pot_grid.getD 0 0) (adx_grid.getD 0 0)
        (compute_metrics (oracle (pot_grid.getD 0 0) (adx_grid.getD 0 0))))

/-- A two-point backtest oracle for exercising the optimizer: the first pot
threshold wins both trades, the second loses one. -/
def c9Oracle (pot _adx : ℚ) : List ℚ :=
  if pot = 13/25 then [1, 1] else [-1, 1]

/-! ## `services/risk/main.py`: the order lifecycle as a transition system

`RiskService.process_status`, `RiskService._time_stop_worker` and
`RiskService._finalize_pending` cooperate around one `PendingOrder` per
`client_order_id`.  The model below tracks one pending order from its
registration by `_register_pending` onward: the Python object survives even
after `_finalize_pending` pops it from `pending_orders`, so the state keeps
the object (`pend`) and a separate `inDict` flag, and the `asyncio.Event` is
the Boolean `eventSet` on the object.  The time-stop worker coroutine is a
three-phase program (before `order_id_event.wait()`, sleeping, returned);
scheduling and the sleep duration are nondeterministic, which only widens the
set of executions the safety theorems cover. -/

/-- The fields of an incoming `OrderStatus` that `process_status` reads:
the correlation id extracted by `_client_id_from_status`, the broker
`order_id` (`""` when absent), the state string and the fills. -/
structure StatusMsg where
  client_id : String
  order_id : String
  state : String
  fills : List FillM

/-- The fields of an `OrderRequest` that the lifecycle paths read. -/
structure OrderRequestM where
  side : String
  quantity : Int
  entry_price : ℚ
  target_price : ℚ
  stop_price : ℚ

/-- `PendingOrder` (the flag `partial_adjusted` is named `adjusted_once`
here). -/
structure PendingOrder where
  client_id : String
  request : OrderRequestM
  time_stop_secs : Int
  order_id : Option String := none
  eventSet : Bool := false
  adjusted_once : Bool := false

/-- An `OrderCommand` as published on `risk_commands`. -/
structure RiskCommand where
  action : String
  client_order_id : Option String := none
  order_id : Option String := none
  stop_price : Option ℚ := none
  target_price : Option ℚ := none

/-- Phases of the `_time_stop_worker` coroutine. -/
inductive WorkerPhase where
  | waitingEvent
  | sleeping
  | finished
deriving DecidableEq

/-- State of the risk service restricted to one registered pending order:
the Python `PendingOrder` object, whether it is still in `pending_orders`
(`inDict`), the worker coroutine's phase, the commands published on
`risk_commands` and the statuses processed so far. -/
structure RiskSysState where
  pend : PendingOrder
  inDict : Bool
  worker : WorkerPhase
  published : List RiskCommand
  seen : List StatusMsg

/-- The state right after `_register_pending` created the pending order and
spawned its time-stop worker. -/
def initRiskSys (client_id : String) (request : OrderRequestM)
    (time_stop_secs : Int) : RiskSysState :=
  { pend := { client_id := client_id, request := request, time_stop_secs := time_stop_secs }
    inDict := true
    worker := .waitingEvent
    published := []
    seen := [] }

/-- The tightened stop computed by `_build_partial_fill_command`:
BUY ⇒ `max(min(entry, stop) - 0.05, 0.01)`; otherwise
`max(stop, entry + 0.05)`. -/
def tightenedStop (request : OrderRequestM) : ℚ :=
  if pyUpper request.side = "BUY" then
    max (min request.entry_price request.stop_price - 1/20) (1/100)
  else max request.stop_price (request.entry_price + 1/20)

/-- `RiskService._should_modify(status, pending)`. -/
def should_modify (status : StatusMsg) (pend : PendingOrder) : Bool :=
  if pend.adjusted_once then false
  else
    let filled := (status.fills.map (fun f => pyTrunc f.qty)).sum
    decide (0 < filled ∧ filled < pend.request.quantity)

/-- `RiskService._build_partial_fill_command(status, pending)`: the modify
command and the pending order with its request rewritten to the new stop. -/
def build_partial_fill_command (pend : PendingOrder) :
    RiskCommand × PendingOrder :=
  let new_stop := tightenedStop pend.request
  let new_target := pend.request.target_price
  ({ action := "modify"
     client_order_id := some pend.client_id
     order_id := pend.order_id
     stop_price := some new_stop
     target_price := some new_target },
   { pend with request :=
      { pend.request with stop_price := new_stop, target_price := new_target } })

/-- Whether a status state string is terminal
(`status.state.lower() in ("filled", "cancelled", "rejected")`). -/
def isTerminal (state : String) : Prop :=
  pyLower state = "filled" ∨ pyLower state = "cancelled" ∨ pyLower state = "rejected"

instance (state : String) : Decidable (isTerminal state) := by
  unfold isTerminal; infer_instance

/-- The order-id / one-shot-event assignment at the top of `process_status`:
when the pending order was found and the status carries a new non-empty broker
`order_id`, record it and set the `order_id_event`. -/
def assignOrderId (σ : RiskSysState) (st : StatusMsg) (found : Bool) : RiskSysState :=
  if found && (st.order_id != "") && (some st.order_id != σ.pend.order_id) then
    { σ with pend := { σ.pend with order_id := some st.order_id, eventSet := true } }
  else σ

/-- `_finalize_pending(client_id)`: pop the tracked pending order when the
status's correlation id is its key. -/
def finalizeIfMine (σ : RiskSysState) (st : StatusMsg) : RiskSysState :=
  if σ.pend.client_id = st.client_id then { σ with inDict := false } else σ

/-- The partial-fill branch of `process_status`: publish the one-shot modify
command and mark the pending order adjusted. -/
def maybeModify (σ : RiskSysState) (st : StatusMsg) (found : Bool) : RiskSysState :=
  if found && should_modify st σ.pend then
    { σ with published := σ.published ++ [(build_partial_fill_command σ.pend).1]
             pend := { (build_partial_fill_command σ.pend).2 with adjusted_once := true } }
  else σ

/-- `RiskService.process_status(status)`, restricted to the tracked pending
order (a lookup with a different `client_order_id` misses, exactly as the
Python dict lookup would). -/
def processStatus (σ : RiskSysState) (st : StatusMsg) : RiskSysState :=
  let σ1 := { σ with seen := σ.seen ++ [st] }
  if st.client_id = "" then σ1
  else
    let found := σ1.inDict && (σ1.pend.client_id == st.client_id)
    let σ2 := assignOrderId σ1 st found
    if isTerminal st.state then finalizeIfMine σ2 st
    else maybeModify σ2 st found

/-- The cancel command built by `_time_stop_worker` when its sleep expires. -/
def timeStopCancel (pend : PendingOrder) : RiskCommand :=
  { action := "cancel"
    client_order_id := some pend.client_id
    order_id := pend.order_id }

/-- Atomic scheduler actions of the risk service model. -/
inductive RiskAct where
  /-- `process_status` runs to completion on one incoming `OrderStatus`. -/
  | status (st : StatusMsg)
  /-- The worker passes `await pending.order_id_event.wait()` (enabled only
  once the event is set) and enters its sleep. -/
  | advance
  /-- The worker's sleep expires: it publishes the cancel command if the
  pending order is still registered, then returns. -/
  | fire
  /-- The worker task is cancelled (by `_finalize_pending` or shutdown). -/
  | cancelTask

/-- One scheduler step.  Disabled actions leave the state unchanged. -/
def riskStep (σ : RiskSysState) (a : RiskAct) : RiskSysState :=
  match a with
  | .status st => processStatus σ st
  | .advance =>
      if σ.worker = .waitingEvent ∧ σ.pend.eventSet then
        { σ with worker := .sleeping }
      else σ
  | .fire =>
      if σ.worker = .sleeping then
        { σ with worker := .finished
                 published :=
                   if σ.inDict then σ.published ++ [timeStopCancel σ.pend]
                   else σ.published }
      else σ
  | .cancelTask => { σ with worker := .finished }

/-- Run the transition system from the freshly registered state. -/
def riskRun (client_id : String) (request : OrderRequestM) (time_stop_secs : Int)
    (acts : List RiskAct) : RiskSysState :=
  acts.foldl riskStep (initRiskSys client_id request time_stop_secs)

/-- Number of modify commands in a published command list. -/
def modCount (cmds : List RiskCommand) : ℕ :=
  (cmds.filter (fun c => c.action == "modify")).length

/-- The time-stop ordering contract of the spec (claim C2): a cancel command
is published only after the one-shot order-id event is set, the event is set
only once a status carrying a non-empty broker `order_id` for this order has
been processed, and hence no cancel is ever emitted before any status is
seen. -/
def TimeStopSpec (σ : RiskSysState) : Prop :=
  (∃ c ∈ σ.published, c.action = "cancel") →
    σ.pend.eventSet = true ∧
    (∃ st ∈ σ.seen, st.client_id = σ.pend.client_id ∧ st.order_id ≠ "") ∧
    σ.seen ≠ []

/-- The partial-fill modify contract of the spec (claim C3): at most one
modify command is ever published for one pending order, and any published
modify carries the tightened stop computed from the original request — BUY ⇒
`max(min(entry, stop) − 0.05, 0.01)`, SELL ⇒ `max(stop, entry + 0.05)`. -/
def PartialModifySpec (orig : OrderRequestM) (σ : RiskSysState) : Prop :=
  modCount σ.published ≤ 1 ∧
  ∀ c ∈ σ.published, c.action = "modify" →
    (orig.side = "BUY" →
      c.stop_price = some (max (min orig.entry_price orig.stop_price - 1/20) (1/100))) ∧
    (orig.side = "SELL" →
      c.stop_price = some (max orig.stop_price (orig.entry_price + 1/20)))

/-- The inductive invariant of the risk order lifecycle, for the order
registered with request `orig` under correlation id `cid`: the sleeping worker
has seen the event; a published cancel implies the event; the event implies a
processed status with a non-empty broker order id; and the one-shot modify
accounting. -/
def RiskInv (orig : OrderRequestM) (cid : String) (σ : RiskSysState) : Prop :=
  σ.pend.client_id = cid ∧
  (σ.worker = WorkerPhase.sleeping → σ.pend.eventSet = true) ∧
  ((∃ c ∈ σ.published, c.action = "cancel") → σ.pend.eventSet = true) ∧
  (σ.pend.eventSet = true →
    ∃ st ∈ σ.seen, st.client_id = cid ∧ st.order_id ≠ "") ∧
  (σ.pend.adjusted_once = false →
    σ.pend.request = orig ∧ modCount σ.published = 0) ∧
  (σ.pend.adjusted_once = true → modCount σ.published = 1) ∧
  (∀ c ∈ σ.published, c.action = "modify" →
    c.stop_price = some (tightenedStop orig))

/-- A pending BUY order used to exercise the lifecycle theorems on a concrete
trace. -/
def cOrigReq : OrderRequestM :=
  { side := "BUY", quantity := 2, entry_price := 1, target_price := 2,
    stop_price := 4/5 }

/-- A first broker status for that order: non-terminal, carries the broker id
and one partial fill of the two requested contracts. -/
def cPartialStatus : StatusMsg :=
  { client_id := "SPY-1", order_id := "B42", state := "open",
    fills := [{ price := 1, qty := 1 }] }

/-- A scheduler trace: the partial-fill status arrives, the worker wakes from
the event, its sleep expires, and the cancel goes out. -/
def cTrace : List RiskAct :=
  [RiskAct.status cPartialStatus, RiskAct.advance, RiskAct.fire]

/-! ## Concrete inputs and spec-side predicates used by the claim theorems -/

/-- A risk configuration under which every check that `entry_allowed` actually
performs can pass. -/
def c1Config : RiskConfig :=
  { daily_loss_cap := -500, per_trade_max_risk_pct := 1/100,
    max_concurrent_positions := 2, no_trade_first_seconds := 0,
    econ_halt_minutes_pre_post := 0, force_flat_before_close_secs := 0,
    defensive_slippage_z := 2, defensive_spread_z := 2 }

/-- A risk state whose defensive flag is raised while every other entry check
passes. -/
def c1State : RiskState :=
  { pnl := 0, open_positions := 0, session_start_ts := 0, last_trade_ts := 0,
    defensive := true }

/-- The change-point detector in a reachable state: its deque already holds 60
calm samples followed by 59 stressed ones, so the next stressed sample makes
the two window halves differ by 10 ≥ threshold 5. -/
def c4Detector : BayesianChangePoint :=
  { history := List.replicate 60 0 ++ List.replicate 59 10 }

/-- A feature packet whose spread is the stressed sample fed to the
detector. -/
def c4Feature : FeaturePacketM :=
  { ts := 0, symbol := "SPY", vwap_slope := 0, adx_3m := 0, vol_of_vol := 0,
    spread_pct := 10 }

/-- Calibration parameters with a non-unit base risk multiplier. -/
def c4Params : CalibParams :=
  { risk_multiplier := 1/2, pot_threshold := 11/20, adx_threshold := 20 }

/-- The OMS metrics contract that the code satisfies: clamped latency, fill
quantity summed, and the quantity-weighted average present exactly when
something filled (given whole-number quantities and positive prices). -/
def MetricsSpec (status : OrderStatusM) : Prop :=
  (metrics_payload status).latency_ms =
    max (((status.ts : ℚ) - (status.request.ts : ℚ)) / 1000) 0 ∧
  ((metrics_payload status).filled_qty : ℚ) = (status.fills.map (fun f => f.qty)).sum ∧
  (metrics_payload status).avg_fill_price =
    (if 0 < (status.fills.map (fun f => f.qty)).sum then
      some ((status.fills.map (fun f => f.price * f.qty)).sum /
        (status.fills.map (fun f => f.qty)).sum)
     else none)

/-- A terminal status whose broker timestamp lags the request timestamp. -/
def c6Status : OrderStatusM :=
  ⟨1000000, "42", "filled", ⟨2000000, "BUY", 1, some "SPY-1"⟩, []⟩

/-- A filled status with one whole-number fill. -/
def c6Filled : OrderStatusM :=
  ⟨3000, "7", "filled", ⟨1000, "BUY", 1, some "SPY-2"⟩, [⟨2, 1⟩]⟩

/-! # Theorems for the claims -/

/-- C7: for every existing stop, current underlying price and `StopSyncConfig`
with `modify_on_tick` enabled, `adjust_stop` never loosens the stop in favor of
the trade direction — the result is `≥ existing_stop` for direction `BUY` and
`≤ existing_stop` for direction `SELL` — and with `modify_on_tick` disabled the
stop is returned unchanged. -/
theorem C7_adjust_stop_never_loosens (existing_stop current_underlying : ℚ)
    (direction : String) (config : StopSyncConfig) :
    (config.modify_on_tick = false →
      adjust_stop existing_stop current_underlying direction config = existing_stop) ∧
    (config.modify_on_tick = true → direction = "BUY" →
      existing_stop ≤ adjust_stop existing_stop current_underlying direction config) ∧
    (config.modify_on_tick = true → direction = "SELL" →
      adjust_stop existing_stop current_underlying direction config ≤ existing_stop) := by
  refine ⟨fun hoff => ?_, fun hon hdir => ?_, fun hon hdir => ?_⟩
  · simp [adjust_stop, hoff]
  · subst hdir
    simp only [adjust_stop, hon]
    norm_num
    exact le_max_left _ _
  · subst hdir
    simp only [adjust_stop, hon]
    norm_num [pyUpper]
    exact min_le_left _ _

/-- C7 witness: concrete evaluations obtained from the theorem. -/
theorem C7_adjust_stop_never_loosens_witness :
    ((1 : ℚ) ≤ adjust_stop 1 5 "BUY" { modify_on_tick := true, trail_coeff := 3/5 }) ∧
    (adjust_stop 1 5 "SELL" { modify_on_tick := true, trail_coeff := 3/5 } ≤ 1) ∧
    (adjust_stop 1 5 "BUY" { modify_on_tick := false, trail_coeff := 3/5 } = 1) := by
  refine ⟨?_, ?_, ?_⟩
  · exact (C7_adjust_stop_never_loosens 1 5 "BUY" _).2.1 rfl rfl
  · exact (C7_adjust_stop_never_loosens 1 5 "SELL" _).2.2 rfl rfl
  · exact (C7_adjust_stop_never_loosens 1 5 "BUY" _).1 rfl

/-- C5: for side `BUY` or `SELL`, the `OTOCOOrder` built by `build_otoco` is
well-formed — the take-profit and stop legs carry the side opposite to the
entry leg, all legs share the quantity, and the entry leg's limit equals
`entry_price + offset_ticks` for `BUY` and `entry_price - offset_ticks` for
`SELL`. -/
theorem C5_build_otoco_well_formed (symbol : String) (quantity : Int) (side : String)
    (entry_price target_price stop_price offset_ticks : ℚ)
    (h : side = "BUY" ∨ side = "SELL") :
    (build_otoco symbol quantity side entry_price target_price stop_price
      offset_ticks).take_profit.side =
      oppositeSide (build_otoco symbol quantity side entry_price target_price stop_price
        offset_ticks).entry.side ∧
    (build_otoco symbol quantity side entry_price target_price stop_price
      offset_ticks).stop.side =
      oppositeSide (build_otoco symbol quantity side entry_price target_price stop_price
        offset_ticks).entry.side ∧
    (build_otoco symbol quantity side entry_price target_price stop_price
      offset_ticks).entry.quantity = quantity ∧
    (build_otoco symbol quantity side entry_price target_price stop_price
      offset_ticks).take_profit.quantity = quantity ∧
    (build_otoco symbol quantity side entry_price target_price stop_price
      offset_ticks).stop.quantity = quantity ∧
    (build_otoco symbol quantity side entry_price target_price stop_price
      offset_ticks).entry.limit_price =
      some (if side = "BUY" then entry_price + offset_ticks
        else entry_price - offset_ticks) := by
  rcases h with h | h <;> subst h
  · refine ⟨rfl, rfl, rfl, rfl, rfl, ?_⟩
    simp [build_otoco, show pyUpper "BUY" = "BUY" from rfl]
    try ring
  · refine ⟨rfl, rfl, rfl, rfl, rfl, ?_⟩
    simp [build_otoco, show pyUpper "SELL" = "SELL" from rfl]
    try ring

/-- C5 witness: the theorem applied to the literal scenario of the spec's
OTOCO lifecycle test (`BUY`, qty 1, entry 1.5, target 1.7, stop 1.3,
offset 0.05 gives entry limit 1.55). -/
theorem C5_build_otoco_well_formed_witness :
    ("BUY" = "BUY" ∨ "BUY" = "SELL") ∧
    (build_otoco "SPY_AUTO" 1 "BUY" (3/2) (17/10) (13/10) (1/20)).entry.limit_price =
      some (31/20) := by
  refine ⟨Or.inl rfl, ?_⟩
  have h := (C5_build_otoco_well_formed "SPY_AUTO" 1 "BUY" (3/2) (17/10) (13/10) (1/20)
    (Or.inl rfl)).2.2.2.2.2
  rw [h]
  norm_num

/-- C10: for every feature packet and passing gate result whose regime score
lies in `[-0.2, 0.2]` and a non-negative timestamp, `choose_playbook` returns
`ORB`; the microsecond-modulo guard of the source holds for all such
timestamps, so the `LATE_PUSH` branch is unreachable there. -/
theorem C10_choose_playbook_orb (features : FeaturePacketM) (gate : GateResult)
    (hallowed : gate.allowed = true)
    (hlo : -(1/5 : ℚ) ≤ gate.regime_score) (hhi : gate.regime_score ≤ (1/5 : ℚ))
    (_hts : 0 ≤ features.ts) :
    features.ts % (60 * 1000000) < 5 * 60 * 1000000 ∧
    choose_playbook features gate = .ok "ORB" := by
  have hguard : features.ts % (60 * 1000000) < 5 * 60 * 1000000 := by omega
  refine ⟨hguard, ?_⟩
  simp only [choose_playbook, hallowed]
  rw [if_neg (by simp), if_neg (not_lt.mpr hhi), if_neg (not_lt.mpr hlo), if_pos hguard]

/-- C10 witness: a concrete mid-regime feature packet. -/
theorem C10_choose_playbook_orb_witness :
    choose_playbook
      { ts := 1700000000000000, symbol := "SPY", vwap_slope := 0, adx_3m := 0,
        vol_of_vol := 0, spread_pct := 0 }
      { allowed := true, regime_score := 0 } = .ok "ORB" :=
  (C10_choose_playbook_orb _ _ rfl (by norm_num) (by norm_num) (by norm_num)).2

/-- C8 counterexample: on the empty price and volume series (equal lengths,
volume sum zero) `compute_session_vwap` raises an indexing error instead of
returning a last price, so the claim's empty-series case fails. -/
theorem C8_counterexample :
    compute_session_vwap [] [] =
      .error "index -1 is out of bounds for axis 0 with size 0" := rfl

/-- C8 (amended): for equal-length series, a positive volume sum yields
`Σ(price·vol)/Σ(vol)`; a non-positive volume sum yields the last price when
the series is non-empty; the empty series yields an error, not a value. -/
theorem C8_vwap_amended (prices volumes : List ℚ)
    (hlen : prices.length = volumes.length) :
    (0 < volumes.sum → compute_session_vwap prices volumes =
      .ok ((List.zipWith (fun p v => p * v) prices volumes).sum / volumes.sum)) ∧
    (volumes.sum ≤ 0 → ∀ p, prices.getLast? = some p →
      compute_session_vwap prices volumes = .ok p) ∧
    (prices = [] → compute_session_vwap prices volumes =
      .error "index -1 is out of bounds for axis 0 with size 0") := by
  refine ⟨fun hpos => ?_, fun hnp p hp => ?_, fun hempty => ?_⟩
  · simp only [compute_session_vwap, hlen, ne_eq, not_true_eq_false, if_false,
      if_neg (not_le.mpr hpos)]
  · simp only [compute_session_vwap, hlen, ne_eq, not_true_eq_false, if_false,
      if_pos hnp, hp]
  · subst hempty
    have hv : volumes = [] := by
      cases volumes with
      | nil => rfl
      | cons a l => simp at hlen
    subst hv
    rfl

/-- C8 witness: the theorem applied to a two-point series and to a zero-volume
singleton. -/
theorem C8_vwap_amended_witness :
    compute_session_vwap [1, 3] [1, 1] =
      .ok ((List.zipWith (fun p v => p * v) [1, 3] [1, 1]).sum / ([1, 1] : List ℚ).sum) ∧
    compute_session_vwap [5] [0] = .ok 5 := by
  constructor
  · exact (C8_vwap_amended [1, 3] [1, 1] rfl).1 (by norm_num)
  · exact (C8_vwap_amended [5] [0] rfl).2.1 (by norm_num) 5 rfl

/-- C1 counterexample: with the defensive flag raised and every other check
passing, `entry_allowed` still returns `True` — the source never consults
`state.defensive` — so the claimed if-and-only-if list of entry checks fails. -/
theorem C1_counterexample :
    entry_allowed c1Config c1State 0 1 1 = true ∧
    ¬ entryChecksSpec c1Config c1State 0 1 1 := by
  constructor
  · norm_num [entry_allowed, c1Config, c1State]
  · intro h
    exact absurd h.2.2.2.2.2 (by norm_num [c1State])

/-- C1 (amended): `entry_allowed` returns `True` iff the five checks it
performs hold — PnL above the loss cap, open positions below the cap, session
warm-up elapsed, econ-halt distance, and force-flat distance; the defensive
flag is not consulted. -/
theorem C1_entry_allowed_amended (config : RiskConfig) (state : RiskState)
    (ts minutes_to_open minutes_to_close : Int) :
    entry_allowed config state ts minutes_to_open minutes_to_close = true ↔
      (config.daily_loss_cap < state.pnl ∧
       state.open_positions < config.max_concurrent_positions ∧
       (config.no_trade_first_seconds : ℚ) ≤
         ((ts : ℚ) - (state.session_start_ts : ℚ)) / 1000000 ∧
       config.econ_halt_minutes_pre_post < |minutes_to_open| ∧
       config.force_flat_before_close_secs < minutes_to_close * 60) := by
  unfold entry_allowed
  split_ifs with h1 h2 h3 h4 h5
  · simp only [Bool.false_eq_true, false_iff]
    rintro ⟨a, -, -, -, -⟩
    exact absurd h1 (not_le.mpr a)
  · simp only [Bool.false_eq_true, false_iff]
    rintro ⟨-, b, -, -, -⟩
    exact absurd h2 (not_le.mpr b)
  · simp only [Bool.false_eq_true, false_iff]
    rintro ⟨-, -, c, -, -⟩
    exact absurd h3 (not_lt.mpr c)
  · simp only [Bool.false_eq_true, false_iff]
    rintro ⟨-, -, -, d, -⟩
    exact absurd h4 (not_le.mpr d)
  · simp only [Bool.false_eq_true, false_iff]
    rintro ⟨-, -, -, -, e⟩
    exact absurd h5 (not_le.mpr e)
  · simp only [true_iff]
    exact ⟨not_le.mp h1, not_le.mp h2, not_lt.mp h3, not_le.mp h4, not_le.mp h5⟩

lemma update_fires (b : BayesianChangePoint) (value : ℚ)
    (hmax : (b.history ++ [value]).length ≤ b.maxlen)
    (hwin : b.window ≤ (b.history ++ [value]).length)
    (hdiff : b.threshold ≤
      |((b.history ++ [value]).take (b.window / 2)).sum /
          ((((b.history ++ [value]).take (b.window / 2)).length : ℕ) : ℚ) -
        ((b.history ++ [value]).drop (b.window / 2)).sum /
          ((((b.history ++ [value]).drop (b.window / 2)).length : ℕ) : ℚ)|) :
    (b.update value).2 = true := by
  have h1 : ¬ (b.maxlen < (b.history ++ [value]).length) := by omega
  have h2 : ¬ ((b.history ++ [value]).length < b.window) := by omega
  simp only [BayesianChangePoint.update]
  rw [if_neg h1, if_neg h2]
  simpa using hdiff

lemma c4_detector_fires : (BayesianChangePoint.update c4Detector 10).2 = true := by
  have hH : c4Detector.history ++ [(10:ℚ)] =
      List.replicate 60 (0:ℚ) ++ (List.replicate 59 10 ++ [(10:ℚ)]) := by
    simp [c4Detector]
  have htake : (List.replicate 60 (0:ℚ) ++ (List.replicate 59 10 ++ [(10:ℚ)])).take 60 =
      List.replicate 60 0 := List.take_left' (by simp)
  have hdrop : (List.replicate 60 (0:ℚ) ++ (List.replicate 59 10 ++ [(10:ℚ)])).drop 60 =
      List.replicate 59 10 ++ [10] := List.drop_left' (by simp)
  have hsum2 : (List.replicate 59 (10:ℚ) ++ [(10:ℚ)]).sum = 600 := by
    rw [List.sum_append, List.sum_replicate]
    norm_num
  have hw : c4Detector.window = 120 := rfl
  have hm : c4Detector.maxlen = 120 := rfl
  have hth : c4Detector.threshold = 5 := rfl
  apply update_fires
  · rw [hH, hm]
    simp
  · rw [hH, hw]
    simp
  · rw [hH, hw, hth]
    norm_num [htake, hdrop, hsum2, List.sum_replicate, List.length_replicate,
      List.length_append]

/-- C4 counterexample: when the change-point detector fires with a base risk
multiplier of 1/2, the published `risk_multiplier` is 0.8 · 1/2 = 0.4, not the
claimed 0.8 — the source multiplies the base in the firing branch too. -/
theorem C4_counterexample :
    (BayesianChangePoint.update c4Detector 10).2 = true ∧
    (handle_feature c4Detector [] c4Params c4Feature).2.risk_multiplier = 2/5 ∧
    ((2 : ℚ)/5) ≠ 4/5 := by
  refine ⟨c4_detector_fires, ?_, by norm_num⟩
  have hs : c4Feature.spread_pct = 10 := rfl
  simp only [handle_feature, hs, c4_detector_fires, if_true, c4Params]
  norm_num

/-- C4 (amended): the published `risk_multiplier` is
`0.8 · base_risk_multiplier` when the change-point detector fires and
`base_risk_multiplier · clamp(1/(1+5·vol_of_vol), 0.5, 1.5)` otherwise; the
published `pot_threshold` is `clamp(base_pot + min(0.2, regime·0.1), 0.4,
0.7)`. -/
theorem C4_learner_adjustments_amended (cp : BayesianChangePoint)
    (weights : List (String × ℚ)) (params : CalibParams)
    (feature : FeaturePacketM) :
    (handle_feature cp weights params feature).2.risk_multiplier =
      (if (cp.update feature.spread_pct).2 then 4/5
       else clamp (1 / (1 + 5 * feature.vol_of_vol)) (1/2) (3/2)) *
        params.risk_multiplier ∧
    (handle_feature cp weights params feature).2.pot_threshold =
      clamp (params.pot_threshold +
        min (1/5) ((|feature.vwap_slope| * 10 + feature.adx_3m / 50) * (1/10)))
        (2/5) (7/10) := by
  constructor
  · simp only [handle_feature, clamp]
    rw [mul_comm (5 : ℚ) feature.vol_of_vol]
  · simp only [handle_feature, clamp]

lemma pyTrunc_natCast (n : ℕ) : pyTrunc (n : ℚ) = n := by
  simp [pyTrunc, if_neg (not_lt.mpr (by positivity : (0:ℚ) ≤ (n : ℚ)))]

lemma fills_facts (fills : List FillM)
    (hq : ∀ f ∈ fills, ∃ n : ℕ, f.qty = n)
    (hp : ∀ f ∈ fills, 0 < f.price) :
    (((fills.map (fun f => pyTrunc f.qty)).sum : Int) : ℚ) =
      (fills.map (fun f => f.qty)).sum ∧
    0 ≤ (fills.map (fun f => f.qty)).sum ∧
    0 ≤ (fills.map (fun f => f.price * f.qty)).sum ∧
    (0 < (fills.map (fun f => f.qty)).sum →
      0 < (fills.map (fun f => f.price * f.qty)).sum) := by
  induction fills with
  | nil => simp
  | cons f fs ih =>
    obtain ⟨n, hn⟩ := hq f (by simp)
    have hpf := hp f (by simp)
    obtain ⟨ihA, ihB, ihC, ihD⟩ :=
      ih (fun g hg => hq g (by simp [hg])) (fun g hg => hp g (by simp [hg]))
    have hqf : (0:ℚ) ≤ f.qty := by rw [hn]; positivity
    refine ⟨?_, ?_, ?_, ?_⟩
    · simp only [List.map_cons, List.sum_cons, Int.cast_add, ihA, hn, pyTrunc_natCast]
      push_cast
      ring
    · simp only [List.map_cons, List.sum_cons]
      positivity
    · simp only [List.map_cons, List.sum_cons]
      have : 0 ≤ f.price * f.qty := mul_nonneg hpf.le hqf
      linarith
    · simp only [List.map_cons, List.sum_cons]
      rcases Nat.eq_zero_or_pos n with h0 | hpos
      · rw [hn, h0]
        intro h
        have := ihD (by simpa using h)
        simp only [Nat.cast_zero, mul_zero]
        linarith
      · intro _
        have hq0 : (0:ℚ) < f.qty := by
          rw [hn]
          exact_mod_cast hpos
        have : 0 < f.price * f.qty := mul_pos hpf hq0
        linarith

/-- C6 counterexample: with `status.ts` one second before `request.ts`, the
emitted `latency_ms` is 0, not the claimed `(status.ts − request.ts)/1000 =
−1000` — the source clamps the latency at zero. -/
theorem C6_counterexample :
    (metrics_payload c6Status).latency_ms = 0 ∧
    ((c6Status.ts : ℚ) - (c6Status.request.ts : ℚ)) / 1000 = -1000 ∧
    ((0 : ℚ) ≠ -1000) := by
  refine ⟨?_, by norm_num [c6Status], by norm_num⟩
  have h : ((1000000 : ℚ) - 2000000) / 1000 = -1000 := by norm_num
  simp only [metrics_payload, c6Status, h]
  norm_num

/-- C6 (amended): for every terminal status with whole-number fill quantities
and positive fill prices, the emitted metrics carry `latency_ms =
max((status.ts − request.ts)/1000, 0)`, `filled_qty` equal to the sum of the
fill quantities, and `avg_fill_price` equal to the quantity-weighted average
fill price, absent exactly when nothing is filled. -/
theorem C6_metrics_amended (status : OrderStatusM)
    (hq : ∀ f ∈ status.fills, ∃ n : ℕ, f.qty = n)
    (hp : ∀ f ∈ status.fills, 0 < f.price) :
    MetricsSpec status := by
  obtain ⟨hA, hB, hC, hD⟩ := fills_facts status.fills hq hp
  refine ⟨rfl, ?_, ?_⟩
  · simpa only [metrics_payload, filled_quantity] using hA
  · simp only [metrics_payload, filled_quantity, MetricsSpec]
    by_cases hpos : 0 < (status.fills.map (fun f => f.qty)).sum
    · have hfq : 0 < (status.fills.map (fun f => pyTrunc f.qty)).sum := by
        have h' : (0:ℚ) < (((status.fills.map (fun f => pyTrunc f.qty)).sum : Int) : ℚ) := by
          rw [hA]; exact hpos
        exact_mod_cast h'
      rw [if_pos ⟨hfq, hD hpos⟩, if_pos hpos, hA]
    · have hfq : ¬ 0 < (status.fills.map (fun f => pyTrunc f.qty)).sum := by
        intro h
        apply hpos
        rw [← hA]
        exact_mod_cast h
      rw [if_neg (fun hc => hfq hc.1), if_neg hpos]

/-- C6 witness: the amended theorem applied to a concrete filled status. -/
theorem C6_metrics_amended_witness : MetricsSpec c6Filled := by
  apply C6_metrics_amended
  · intro f hf
    have hfe : f = (⟨2, 1⟩ : FillM) := by simpa [c6Filled] using hf
    subst hfe
    exact ⟨1, by norm_num⟩
  · intro f hf
    have hfe : f = (⟨2, 1⟩ : FillM) := by simpa [c6Filled] using hf
    subst hfe
    norm_num

/-! ## The risk order-lifecycle invariant -/

lemma modCount_append (l : List RiskCommand) (c : RiskCommand) :
    modCount (l ++ [c]) = modCount l + (if c.action = "modify" then 1 else 0) := by
  simp only [modCount, List.filter_append, List.length_append]
  by_cases hc : c.action = "modify" <;> simp [hc]

lemma riskInv_init (orig : OrderRequestM) (cid : String) (tss : Int) :
    RiskInv orig cid (initRiskSys cid orig tss) := by
  refine ⟨rfl, by simp [initRiskSys], by simp [initRiskSys], ?_, ?_, ?_, ?_⟩
  · intro h
    simp [initRiskSys] at h
  · intro _
    exact ⟨rfl, rfl⟩
  · intro h
    simp [initRiskSys] at h
  · intro c hc
    simp [initRiskSys] at hc

lemma riskInv_seen {orig : OrderRequestM} {cid : String} {σ : RiskSysState}
    (h : RiskInv orig cid σ) (st : StatusMsg) :
    RiskInv orig cid { σ with seen := σ.seen ++ [st] } := by
  obtain ⟨h1, h2, h3, h4, h5, h6, h7⟩ := h
  refine ⟨h1, h2, h3, ?_, h5, h6, h7⟩
  intro he
  obtain ⟨st', hmem, hprop⟩ := h4 he
  exact ⟨st', List.mem_append_left _ hmem, hprop⟩

lemma riskInv_assign {orig : OrderRequestM} {cid : String} {σ : RiskSysState}
    (h : RiskInv orig cid σ) (st : StatusMsg) (found : Bool)
    (hfound : found = true → σ.pend.client_id = st.client_id)
    (hseen : st ∈ σ.seen) :
    RiskInv orig cid (assignOrderId σ st found) := by
  obtain ⟨h1, h2, h3, h4, h5, h6, h7⟩ := h
  unfold assignOrderId
  split_ifs with hc
  · simp only [Bool.and_eq_true, bne_iff_ne, ne_eq] at hc
    obtain ⟨⟨hf, hid⟩, -⟩ := hc
    refine ⟨h1, fun _ => rfl, fun _ => rfl, ?_, h5, h6, h7⟩
    intro _
    exact ⟨st, hseen, (hfound hf).symm.trans h1, hid⟩
  · exact ⟨h1, h2, h3, h4, h5, h6, h7⟩

lemma riskInv_finalize {orig : OrderRequestM} {cid : String} {σ : RiskSysState}
    (h : RiskInv orig cid σ) (st : StatusMsg) :
    RiskInv orig cid (finalizeIfMine σ st) := by
  unfold finalizeIfMine
  split_ifs
  · exact h
  · exact h

lemma should_modify_not_adjusted {st : StatusMsg} {pend : PendingOrder}
    (h : should_modify st pend = true) : pend.adjusted_once = false := by
  by_contra hne
  have hta : pend.adjusted_once = true := by
    cases hp : pend.adjusted_once
    · exact absurd hp hne
    · rfl
  unfold should_modify at h
  rw [if_pos hta] at h
  exact Bool.false_ne_true h

lemma riskInv_maybeModify {orig : OrderRequestM} {cid : String} {σ : RiskSysState}
    (h : RiskInv orig cid σ) (st : StatusMsg) (found : Bool) :
    RiskInv orig cid (maybeModify σ st found) := by
  obtain ⟨h1, h2, h3, h4, h5, h6, h7⟩ := h
  unfold maybeModify
  split_ifs with hc
  · simp only [Bool.and_eq_true] at hc
    have hna : σ.pend.adjusted_once = false := should_modify_not_adjusted hc.2
    obtain ⟨horig, hzero⟩ := h5 hna
    refine ⟨h1, h2, ?_, h4, ?_, ?_, ?_⟩
    · intro ⟨c, hcm, hcan⟩
      rcases List.mem_append.mp hcm with hold | hnew
      · exact h3 ⟨c, hold, hcan⟩
      · rw [List.mem_singleton] at hnew
        subst hnew
        simp [build_partial_fill_command] at hcan
    · intro habs
      simp at habs
    · intro _
      rw [modCount_append, hzero]
      simp [build_partial_fill_command]
    · intro c hcm hmod
      rcases List.mem_append.mp hcm with hold | hnew
      · exact h7 c hold hmod
      · rw [List.mem_singleton] at hnew
        subst hnew
        simp only [build_partial_fill_command]
        rw [horig]
  · exact ⟨h1, h2, h3, h4, h5, h6, h7⟩

lemma riskInv_processStatus {orig : OrderRequestM} {cid : String} {σ : RiskSysState}
    (h : RiskInv orig cid σ) (st : StatusMsg) :
    RiskInv orig cid (processStatus σ st) := by
  have hs : RiskInv orig cid { σ with seen := σ.seen ++ [st] } := riskInv_seen h st
  have hmem : st ∈ ({ σ with seen := σ.seen ++ [st] } : RiskSysState).seen :=
    List.mem_append_right _ (List.mem_singleton.mpr rfl)
  have hfound : (({ σ with seen := σ.seen ++ [st] } : RiskSysState).inDict &&
      (({ σ with seen := σ.seen ++ [st] } : RiskSysState).pend.client_id ==
        st.client_id)) = true →
      ({ σ with seen := σ.seen ++ [st] } : RiskSysState).pend.client_id = st.client_id := by
    intro hf
    simp only [Bool.and_eq_true, beq_iff_eq] at hf
    exact hf.2
  have ha := riskInv_assign hs st _ hfound hmem
  simp only [processStatus]
  split_ifs with hcid hterm
  · exact hs
  · exact riskInv_finalize ha st
  · exact riskInv_maybeModify ha st _

lemma riskInv_step {orig : OrderRequestM} {cid : String} {σ : RiskSysState}
    (h : RiskInv orig cid σ) (a : RiskAct) :
    RiskInv orig cid (riskStep σ a) := by
  cases a with
  | status st => exact riskInv_processStatus h st
  | advance =>
      obtain ⟨h1, h2, h3, h4, h5, h6, h7⟩ := h
      simp only [riskStep]
      split_ifs with hc
      · exact ⟨h1, fun _ => hc.2, h3, h4, h5, h6, h7⟩
      · exact ⟨h1, h2, h3, h4, h5, h6, h7⟩
  | fire =>
      obtain ⟨h1, h2, h3, h4, h5, h6, h7⟩ := h
      simp only [riskStep]
      by_cases hw : σ.worker = WorkerPhase.sleeping
      · rw [if_pos hw]
        have hev := h2 hw
        refine ⟨h1, ?_, fun _ => hev, h4, ?_, ?_, ?_⟩
        · intro habs
          simp at habs
        · intro hna
          obtain ⟨horig, hzero⟩ := h5 hna
          refine ⟨horig, ?_⟩
          by_cases hd : σ.inDict
          · rw [if_pos hd, modCount_append, hzero]
            simp [timeStopCancel]
          · rw [if_neg hd]
            exact hzero
        · intro hta
          have hone := h6 hta
          by_cases hd : σ.inDict
          · rw [if_pos hd, modCount_append, hone]
            simp [timeStopCancel]
          · rw [if_neg hd]
            exact hone
        · intro c hcm hmod
          by_cases hd : σ.inDict
          · rw [if_pos hd] at hcm
            rcases List.mem_append.mp hcm with hold | hnew
            · exact h7 c hold hmod
            · rw [List.mem_singleton] at hnew
              subst hnew
              simp [timeStopCancel] at hmod
          · rw [if_neg hd] at hcm
            exact h7 c hcm hmod
      · rw [if_neg hw]
        exact ⟨h1, h2, h3, h4, h5, h6, h7⟩
  | cancelTask =>
      obtain ⟨h1, h2, h3, h4, h5, h6, h7⟩ := h
      refine ⟨h1, ?_, h3, h4, h5, h6, h7⟩
      intro habs
      simp [riskStep] at habs

lemma riskInv_run (cid : String) (request : OrderRequestM) (tss : Int)
    (acts : List RiskAct) :
    RiskInv request cid (riskRun cid request tss acts) := by
  have hgen : ∀ (l : List RiskAct) (σ : RiskSysState), RiskInv request cid σ →
      RiskInv request cid (l.foldl riskStep σ) := by
    intro l
    induction l with
    | nil => intro σ h; exact h
    | cons a l ih =>
        intro σ h
        exact ih _ (riskInv_step h a)
  exact hgen acts _ (riskInv_init request cid tss)

/-- C2: in every execution of the risk order lifecycle, a cancel command is
published on `risk_commands` only after the one-shot order-id event has been
set, the event is set only once a processed `OrderStatus` for this order
carried a non-empty broker `order_id`, and no cancel is ever emitted before
any status is seen. -/
theorem C2_time_stop_after_order_id (cid : String) (request : OrderRequestM)
    (tss : Int) (acts : List RiskAct) :
    TimeStopSpec (riskRun cid request tss acts) := by
  obtain ⟨h1, h2, h3, h4, h5, h6, h7⟩ := riskInv_run cid request tss acts
  intro hc
  have hev := h3 hc
  obtain ⟨st, hmem, hcidst, hord⟩ := h4 hev
  exact ⟨hev, ⟨st, hmem, hcidst.trans h1.symm, hord⟩, List.ne_nil_of_mem hmem⟩

/-- C2 witness: on a concrete trace — one non-terminal status carrying a
broker order id, then the worker wakes and its sleep expires — a cancel is
published, and the theorem's consequences evaluate as expected. -/
theorem C2_time_stop_after_order_id_witness :
    (∃ c ∈ (riskRun "SPY-1" cOrigReq 5 cTrace).published, c.action = "cancel") ∧
    (riskRun "SPY-1" cOrigReq 5 cTrace).pend.eventSet = true ∧
    (riskRun "SPY-1" cOrigReq 5 cTrace).seen ≠ [] := by
  have hc : ∃ c ∈ (riskRun "SPY-1" cOrigReq 5 cTrace).published,
      c.action = "cancel" := by decide
  have h := C2_time_stop_after_order_id "SPY-1" cOrigReq 5 cTrace hc
  exact ⟨hc, h.1, h.2.2⟩

/-- C3: in every execution of the risk order lifecycle, at most one modify
command is published for a pending order, and any published modify tightens
the stop exactly as the source computes it from the original request — BUY ⇒
`max(min(entry, stop) − 0.05, 0.01)`, SELL ⇒ `max(stop, entry + 0.05)`. -/
theorem C3_partial_fill_modify_once (cid : String) (orig : OrderRequestM)
    (tss : Int) (acts : List RiskAct) :
    PartialModifySpec orig (riskRun cid orig tss acts) := by
  obtain ⟨h1, h2, h3, h4, h5, h6, h7⟩ := riskInv_run cid orig tss acts
  constructor
  · cases hA : (riskRun cid orig tss acts).pend.adjusted_once
    · rw [(h5 hA).2]
      norm_num
    · rw [h6 hA]
  · intro c hc hm
    have hst := h7 c hc hm
    constructor
    · intro hbuy
      rw [hst]
      unfold tightenedStop
      rw [hbuy, if_pos (show pyUpper "BUY" = "BUY" from rfl)]
    · intro hsell
      rw [hst]
      unfold tightenedStop
      rw [hsell, if_neg (show ¬ pyUpper "SELL" = "BUY" by decide)]

/-- C3 witness: on the concrete partial-fill trace exactly one modify goes
out, and by the theorem its stop price is the tightened BUY stop of the
original request. -/
theorem C3_partial_fill_modify_once_witness :
    ∃ c ∈ (riskRun "SPY-1" cOrigReq 5 cTrace).published, c.action = "modify" ∧
      c.stop_price =
        some (max (min cOrigReq.entry_price cOrigReq.stop_price - 1/20) (1/100)) := by
  have h := C3_partial_fill_modify_once "SPY-1" cOrigReq 5 cTrace
  have hex : ∃ c ∈ (riskRun "SPY-1" cOrigReq 5 cTrace).published,
      c.action = "modify" := by decide
  obtain ⟨c, hc, hm⟩ := hex
  exact ⟨c, hc, hm, (h.2 c hc hm).1 rfl⟩

/-! ## The calibrator grid search -/

lemma optStep_skip (oracle : ℚ → ℚ → List ℚ) (mwr : ℚ) (mt : ℕ)
    (acc : Option (CalibMetrics × List ℚ × GridParams)) (pa : ℚ × ℚ)
    (hq : qualifies (compute_metrics (oracle pa.1 pa.2)) mwr mt = false) :
    optStep oracle mwr mt acc pa = acc := by
  simp only [optStep]
  rw [if_pos hq]

lemma optStep_none (oracle : ℚ → ℚ → List ℚ) (mwr : ℚ) (mt : ℕ) (pa : ℚ × ℚ)
    (hq : qualifies (compute_metrics (oracle pa.1 pa.2)) mwr mt = true) :
    optStep oracle mwr mt none pa = some (optPayload oracle pa) := by
  simp only [optStep]
  rw [if_neg (by rw [hq]; simp)]
  rfl

lemma optStep_some (oracle : ℚ → ℚ → List ℚ) (mwr : ℚ) (mt : ℕ) (pa : ℚ × ℚ)
    (b : CalibMetrics × List ℚ × GridParams)
    (hq : qualifies (compute_metrics (oracle pa.1 pa.2)) mwr mt = true) :
    optStep oracle mwr mt (some b) pa =
      (if b.1.expectancy < (compute_metrics (oracle pa.1 pa.2)).expectancy then
        some (optPayload oracle pa) else some b) := by
  simp only [optStep]
  rw [if_neg (by rw [hq]; simp)]
  rfl

lemma optLoopGood_step (oracle : ℚ → ℚ → List ℚ) (mwr : ℚ) (mt : ℕ)
    (L : List (ℚ × ℚ)) (acc : Option (CalibMetrics × List ℚ × GridParams))
    (pa : ℚ × ℚ) (h : OptLoopGood oracle mwr mt L acc) :
    OptLoopGood oracle mwr mt (L ++ [pa]) (optStep oracle mwr mt acc pa) := by
  cases hqv : qualifies (compute_metrics (oracle pa.1 pa.2)) mwr mt with
  | false =>
      rw [optStep_skip oracle mwr mt acc pa hqv]
      cases acc with
      | none =>
          intro pb hpb
          rcases List.mem_append.mp hpb with hold | hnew
          · exact h pb hold
          · rw [List.mem_singleton] at hnew
            subst hnew
            exact hqv
      | some b =>
          obtain ⟨pc, hc1, hc2, hc3, hc4⟩ := h
          refine ⟨pc, List.mem_append_left _ hc1, hc2, hc3, ?_⟩
          intro pb hpb hqb
          rcases List.mem_append.mp hpb with hold | hnew
          · exact hc4 pb hold hqb
          · rw [List.mem_singleton] at hnew
            subst hnew
            rw [hqv] at hqb
            exact absurd hqb (by simp)
  | true =>
      cases acc with
      | none =>
          rw [optStep_none oracle mwr mt pa hqv]
          refine ⟨pa, List.mem_append_right _ (List.mem_singleton.mpr rfl), hqv, rfl, ?_⟩
          intro pb hpb hqb
          rcases List.mem_append.mp hpb with hold | hnew
          · rw [h pb hold] at hqb
            exact absurd hqb (by simp)
          · rw [List.mem_singleton] at hnew
            subst hnew
            exact le_refl _
      | some b =>
          rw [optStep_some oracle mwr mt pa b hqv]
          obtain ⟨pc, hc1, hc2, hc3, hc4⟩ := h
          have hb1 : b.1.expectancy = (compute_metrics (oracle pc.1 pc.2)).expectancy := by
            rw [hc3]
          by_cases hlt : b.1.expectancy < (compute_metrics (oracle pa.1 pa.2)).expectancy
          · rw [if_pos hlt]
            refine ⟨pa, List.mem_append_right _ (List.mem_singleton.mpr rfl), hqv, rfl, ?_⟩
            intro pb hpb hqb
            rcases List.mem_append.mp hpb with hold | hnew
            · exact le_of_lt (lt_of_le_of_lt (hc4 pb hold hqb) (hb1 ▸ hlt))
            · rw [List.mem_singleton] at hnew
              subst hnew
              exact le_refl _
          · rw [if_neg hlt]
            refine ⟨pc, List.mem_append_left _ hc1, hc2, hc3, ?_⟩
            intro pb hpb hqb
            rcases List.mem_append.mp hpb with hold | hnew
            · exact hc4 pb hold hqb
            · rw [List.mem_singleton] at hnew
              subst hnew
              exact hb1 ▸ not_lt.mp hlt

lemma optLoopGood_foldl (oracle : ℚ → ℚ → List ℚ) (mwr : ℚ) (mt : ℕ)
    (L : List (ℚ × ℚ)) :
    OptLoopGood oracle mwr mt L (L.foldl (optStep oracle mwr mt) none) := by
  induction L using List.reverseRecOn with
  | nil =>
      intro pa hpa
      simp at hpa
  | append_singleton L pa ih =>
      rw [List.foldl_append]
      exact optLoopGood_step oracle mwr mt L _ pa ih

/-- C9: `optimize_symbol` returns the params of a qualifying grid combination
of maximal expectancy (subject to the `min_trades` and `min_win_rate`
constraints), with `pot` rounded to 4 and `adx` to 2 decimals and
`risk_multiplier = round(clamp(1+expectancy, 0.5, 1.5), 4)`; when no
combination qualifies it falls back to the first grid point. -/
theorem C9_optimize_symbol_grid (oracle : ℚ → ℚ → List ℚ)
    (pot_grid adx_grid : List ℚ) (min_win_rate : ℚ) (min_trades : ℕ)
    (_hpot : pot_grid ≠ []) (_hadx : adx_grid ≠ []) :
    OptimizeSpec oracle pot_grid adx_grid min_win_rate min_trades := by
  have hfold := optLoopGood_foldl oracle min_win_rate min_trades
    (gridProduct pot_grid adx_grid)
  constructor
  · intro ⟨pa, hpa, hq⟩
    cases hacc : (gridProduct pot_grid adx_grid).foldl
        (optStep oracle min_win_rate min_trades) none with
    | none =>
        rw [hacc] at hfold
        rw [hfold pa hpa] at hq
        exact absurd hq (by simp)
    | some b =>
        rw [hacc] at hfold
        obtain ⟨pc, hc1, hc2, hc3, hc4⟩ := hfold
        refine ⟨pc, hc1, hc2, ?_, ?_, hc4⟩
        · unfold optimize_symbol
          rw [hacc, hc3]
        · unfold optimize_symbol
          rw [hacc, hc3]
  · intro hall
    cases hacc : (gridProduct pot_grid adx_grid).foldl
        (optStep oracle min_win_rate min_trades) none with
    | some b =>
        rw [hacc] at hfold
        obtain ⟨pc, hc1, hc2, -⟩ := hfold
        rw [hall pc hc1] at hc2
        exact absurd hc2 (by simp)
    | none =>
        unfold optimize_symbol
        rw [hacc]

/-- C9 witness: the theorem applied to the concrete two-point grid oracle. -/
theorem C9_optimize_symbol_grid_witness :
    OptimizeSpec c9Oracle [13/25, 11/20] [12] (3/5) 2 :=
  C9_optimize_symbol_grid c9Oracle [13/25, 11/20] [12] (3/5) 2 (by simp) (by simp)

end DreamBot
